import Mathlib

set_option maxRecDepth 100000

/-!
Shallow embedding of the policy rule compiler and authorization evaluator of
the `mcp-dynamic-policy` repository, together with theorems checking the
natural-language specification against it.

Two implementations of the core live in the repository and are embedded here
side by side:

* `src/dynamic-policy-mcp-server.js` — `parsePolicyRules`, `matchRule`,
  `evaluatePolicyAgainstRequest`, `evaluateAuthZ`, `validateAndFormatPolicy`
  and `generatePolicyForAgent` (state passed explicitly).
* `src/mcp-server-stdio.js` — `parseCedarPolicy` and `evaluateCedarPolicy`.

JavaScript strings are modelled as Lean `String`; the handful of string
primitives the source uses (`split`, `trim`, `includes`, `startsWith`,
`replace(/…/g, '')` and the anchored regular-expression captures) are defined
below by structural recursion on `List Char` so that every definition is
executable and kernel-reducible.  A regular expression such as
`/principal\s+in\s+MCP::Client::"([^"]+)"/` is modelled at the first
occurrence of its single-space form — exactly the form whose presence the
guarding `line.includes(...)` check requires — capturing the characters that
follow it up to, and requiring, the next double quote.
-/

/-- Splits a list of characters at every occurrence of the character `c`
(models JavaScript `String.prototype.split` with a one-character separator;
`split` never drops empty fields). -/
def splitOnChar (c : Char) : List Char → List (List Char)
  | [] => [[]]
  | a :: t =>
    match splitOnChar c t with
    | h :: r => if a = c then [] :: h :: r else (a :: h) :: r
    | [] => if a = c then [[], []] else [[a]]

/-- Characters of `s` split at newlines, as strings (models `s.split('\n')`). -/
def splitLines (s : String) : List String :=
  (splitOnChar '\n' s.data).map String.mk

/-- Leading and trailing whitespace removed (models `s.trim()`). -/
def trimChars (l : List Char) : List Char :=
  ((l.dropWhile Char.isWhitespace).reverse.dropWhile Char.isWhitespace).reverse

/-- String form of `trimChars` (models `s.trim()`). -/
def strTrim (s : String) : String :=
  String.mk (trimChars s.data)

/-- Does `pat` occur as a contiguous sublist of `l`?  (Models
`s.includes(pat)`.) -/
def containsSub (l pat : List Char) : Bool :=
  match l with
  | [] => pat.isEmpty
  | c :: t => pat.isPrefixOf (c :: t) || containsSub t pat

/-- Substring test on strings (models `s.includes(pat)`). -/
def strContains (s pat : String) : Bool :=
  containsSub s.data pat.data

/-- Prefix test on strings (models `s.startsWith(pat)`). -/
def strStartsWith (s pat : String) : Bool :=
  pat.data.isPrefixOf s.data

/-- Emptiness test on strings (JavaScript `!s` on a string is true exactly
for the empty string). -/
def strIsEmpty (s : String) : Bool :=
  s.data.isEmpty

/-- The suffix of `l` that follows the first occurrence of `pat`, when `pat`
occurs at all. -/
def splitFirst (pat : List Char) : List Char → Option (List Char)
  | [] => none
  | c :: t =>
    if pat.isPrefixOf (c :: t) then some (List.drop pat.length (c :: t))
    else splitFirst pat t

/-- The capture of a regular expression of the shape `pat([^"]+)"`: the
characters following the first occurrence of `pat` in `line`, up to the next
double quote, which must exist and must not come immediately (the capture
group is one-or-more).  Models `line.match(/…"([^"]+)"/)` for the patterns of
the source, whose single-space concrete form is `pat`. -/
def captureAfter (line pat : String) : Option String :=
  match splitFirst pat.data line.data with
  | none => none
  | some rest =>
    let cap := rest.takeWhile (fun c => c != '"')
    if cap.isEmpty || cap.length == rest.length then none
    else some (String.mk cap)

/-- The capture of the regular expression `action\s+in\s+\[([^\]]+)\]`: the
characters between `action in [` and the next `]`, which must exist and be
non-empty. -/
def captureBracket (line : String) : Option String :=
  match splitFirst "action in [".data line.data with
  | none => none
  | some rest =>
    let cap := rest.takeWhile (fun c => c != ']')
    if cap.isEmpty || cap.length == rest.length then none
    else some (String.mk cap)

/-- Fuel-bounded removal of every occurrence of `pat` (models
`s.replace(/pat/g, '')`).  The fuel is spent one unit per emitted or
consumed character, so `l.length` units always suffice. -/
def removeAllSubAux : Nat → List Char → List Char → List Char
  | 0, l, _ => l
  | _ + 1, [], _ => []
  | fuel + 1, c :: t, pat =>
    if pat.isPrefixOf (c :: t) && !pat.isEmpty then
      removeAllSubAux fuel (List.drop pat.length (c :: t)) pat
    else
      c :: removeAllSubAux fuel t pat

/-- Every occurrence of `pat` removed from `l` (models
`s.replace(/pat/g, '')` for the non-empty literal patterns of the source). -/
def removeAllSub (l pat : List Char) : List Char :=
  removeAllSubAux l.length l pat

/-- One element of a bracketed action list, cleaned the way
`parseCedarPolicy` cleans it:
`a.trim().replace(/MCP::Action::/g, '').replace(/"/g, '')`. -/
def stripActionItem (a : String) : String :=
  String.mk ((removeAllSub (trimChars a.data) "MCP::Action::".data).filter
    (fun c => c != '"'))

/-! ## `src/dynamic-policy-mcp-server.js` -/

/-- The in-progress / parsed rule object of `parsePolicyRules`
(`{ type, principalType, action }`, where absent fields are `null`). -/
structure Rule where
  type : String
  principalType : Option String
  action : Option String
deriving DecidableEq, Repr

/-- The line loop of `parsePolicyRules` (lines 727–766 of
`dynamic-policy-mcp-server.js`): `cur` is the mutable `currentRule`.  A rule
is pushed at its closing `);` only when it carries a principal or an action
constraint. -/
def parsePolicyLines : List String → Option Rule → List Rule
  | [], _ => []
  | l :: rest, cur =>
    let line := strTrim l
    if strIsEmpty line || strStartsWith line "//" then
      parsePolicyLines rest cur
    else if line = "permit(" then
      parsePolicyLines rest (some ⟨"permit", none, none⟩)
    else if line = "forbid(" then
      parsePolicyLines rest (some ⟨"forbid", none, none⟩)
    else if line = ");" then
      match cur with
      | some r =>
        if r.principalType.isSome || r.action.isSome then
          r :: parsePolicyLines rest none
        else
          parsePolicyLines rest none
      | none => parsePolicyLines rest cur
    else
      match cur with
      | none => parsePolicyLines rest cur
      | some r =>
        if strContains line "principal in MCP::Client::\"" then
          parsePolicyLines rest (some
            (match captureAfter line "principal in MCP::Client::\"" with
             | some v => { r with principalType := some v }
             | none => r))
        else if strContains line "action in MCP::Action::\"" then
          parsePolicyLines rest (some
            (match captureAfter line "action in MCP::Action::\"" with
             | some v => { r with action := some v }
             | none => r))
        else if strContains line "action == MCP::Action::\"" then
          parsePolicyLines rest (some
            (match captureAfter line "action == MCP::Action::\"" with
             | some v => { r with action := some v }
             | none => r))
        else
          parsePolicyLines rest cur

/-- `parsePolicyRules` of `dynamic-policy-mcp-server.js`: split the policy
text into lines and run the statement loop. -/
def parsePolicyRules (policyText : String) : List Rule :=
  parsePolicyLines (splitLines policyText) none

/-- `matchRule` of `dynamic-policy-mcp-server.js` (lines 777–819).  The
principal check recognizes only the two built-in categories `authenticated`
and `unauthenticated`, by bare equality or by the decorated form with a `-`
separator; `resource` is received but never consulted. -/
def matchRule (rule : Rule) (action principal resource : String) : Bool :=
  let principalOk :=
    match rule.principalType with
    | some pt =>
      let isAuthenticatedMatch :=
        pt == "authenticated" &&
          (strStartsWith principal "authenticated-" || principal == "authenticated")
      let isUnauthenticatedMatch :=
        pt == "unauthenticated" &&
          (strStartsWith principal "unauthenticated-" || principal == "unauthenticated")
      isAuthenticatedMatch || isUnauthenticatedMatch
    | none => true
  let actionOk :=
    match rule.action with
    | some a => action == a
    | none => true
  principalOk && actionOk

/-- The rule loop of `evaluatePolicyAgainstRequest` (lines 702–711):
`decision` starts at `"Deny"`; a matching permit sets it to `"Permit"` and
continues, a matching forbid sets it to `"Deny"` and breaks. -/
def evalPolicyRules : List Rule → String → String → String → String → String
  | [], _, _, _, decision => decision
  | r :: rest, action, principal, resource, decision =>
    if matchRule r action principal resource then
      if r.type = "permit" then
        evalPolicyRules rest action principal resource "Permit"
      else if r.type = "forbid" then
        "Deny"
      else
        evalPolicyRules rest action principal resource decision
    else
      evalPolicyRules rest action principal resource decision

/-- `evaluatePolicyAgainstRequest` of `dynamic-policy-mcp-server.js`
(lines 697–714). -/
def evaluatePolicyAgainstRequest
    (policyText action principal resource : String) : Bool :=
  evalPolicyRules (parsePolicyRules policyText) action principal resource "Deny"
    == "Permit"

/-! ## `src/mcp-server-stdio.js` -/

/-- The rule object built by `parseCedarPolicy`
(`{ type, conditions, principalType?, principalExact?, action?, actions? }`;
`conditions` is initialized to `[]` and never used afterwards). -/
structure CedarRule where
  type : String
  conditions : List String
  principalType : Option String
  principalExact : Option String
  action : Option String
  actions : Option (List String)
deriving DecidableEq, Repr

/-- The line loop of `parseCedarPolicy` (lines 708–777 of
`mcp-server-stdio.js`).  Unlike `parsePolicyLines`, a rule is pushed at its
closing `);` unconditionally, and the grammar additionally recognizes
`principal ==` exact matches and bracketed `action in [...]` lists. -/
def parseCedarLines : List String → Option CedarRule → List CedarRule
  | [], _ => []
  | l :: rest, cur =>
    let line := strTrim l
    if strIsEmpty line || strStartsWith line "//" then
      parseCedarLines rest cur
    else if line = "permit(" then
      parseCedarLines rest (some ⟨"permit", [], none, none, none, none⟩)
    else if line = "forbid(" then
      parseCedarLines rest (some ⟨"forbid", [], none, none, none, none⟩)
    else if line = ");" then
      match cur with
      | some r => r :: parseCedarLines rest none
      | none => parseCedarLines rest cur
    else
      match cur with
      | none => parseCedarLines rest cur
      | some r =>
        if strContains line "action in MCP::Action::\"" then
          parseCedarLines rest (some
            (match captureAfter line "action in MCP::Action::\"" with
             | some v => { r with action := some v }
             | none => r))
        else if strContains line "action == MCP::Action::\"" then
          parseCedarLines rest (some
            (match captureAfter line "action == MCP::Action::\"" with
             | some v => { r with action := some v }
             | none => r))
        else if strContains line "principal in MCP::Client::\"" then
          parseCedarLines rest (some
            (match captureAfter line "principal in MCP::Client::\"" with
             | some v => { r with principalType := some v }
             | none => r))
        else if strContains line "principal == MCP::Client::\"" then
          parseCedarLines rest (some
            (match captureAfter line "principal == MCP::Client::\"" with
             | some v => { r with principalExact := some v }
             | none => r))
        else if strContains line "action in [" then
          parseCedarLines rest (some
            (match captureBracket line with
             | some cap =>
               let acts := (splitOnChar ',' cap.data).map
                 (fun a => stripActionItem (String.mk a))
               { r with actions := some acts }
             | none => r))
        else
          parseCedarLines rest cur

/-- `parseCedarPolicy` of `mcp-server-stdio.js` (the global policy text is
passed explicitly). -/
def parseCedarPolicy (cedarPolicy : String) : List CedarRule :=
  parseCedarLines (splitLines cedarPolicy) none

/-- The rule loop of `evaluateCedarPolicy` (lines 809–866).  A rule with a
category constraint matches a principal that contains `client-<category>`;
a rule with an exact constraint matches by equality; a rule with neither
leaves `principalMatches` at its initial `false`.  A matching forbid sets
the decision to `"Deny"` but iteration continues (the source has no
`break`), so a later matching permit overrides it. -/
def evalCedarRules : List CedarRule → String → String → String → String
  | [], _, _, decision => decision
  | r :: rest, action, principal, decision =>
    let principalMatches :=
      match r.principalType with
      | some pt => !(strIsEmpty principal) && strContains principal ("client-" ++ pt)
      | none =>
        match r.principalExact with
        | some pe => principal == pe
        | none => false
    let actionMatches :=
      match r.actions with
      | some l =>
        if 0 < l.length then l.any (fun a => action == strTrim a)
        else
          match r.action with
          | some a => action == a
          | none => true
      | none =>
        match r.action with
        | some a => action == a
        | none => true
    if principalMatches && actionMatches then
      if r.type = "permit" then
        evalCedarRules rest action principal "Permit"
      else if r.type = "forbid" then
        evalCedarRules rest action principal "Deny"
      else
        evalCedarRules rest action principal decision
    else
      evalCedarRules rest action principal decision

/-- `evaluateCedarPolicy` of `mcp-server-stdio.js` (lines 789–870): an empty
policy text denies outright, otherwise the parsed rules are folded from the
default `"Deny"`; `resource` is received but never consulted. -/
def evaluateCedarPolicy (cedarPolicy action principal resource : String) : Bool :=
  if cedarPolicy.data.length = 0 then false
  else
    evalCedarRules (parseCedarPolicy cedarPolicy) action principal "Deny" == "Permit"

/-! ## Policy store state of `DynamicPolicyMCPServer` -/

/-- The per-agent context stored by `generatePolicyForAgent`
(`{ task, authentication, roles, createdAt }`). -/
structure AgentContext where
  task : String
  authentication : String
  roles : List String
  createdAt : String
deriving DecidableEq, Repr

/-- The mutable state of `DynamicPolicyMCPServer` (constructor, lines 14–19):
the two `Map`s `activePolicies : agentId → policy text` and
`agentContexts : agentId → context`, modelled as partial functions. -/
structure ServerState where
  activePolicies : String → Option String
  agentContexts : String → Option AgentContext

/-- `validateAndFormatPolicy` of `dynamic-policy-mcp-server.js`
(lines 647–665): throws (modelled as `Except.error`) exactly when the
generated text contains neither a `permit(` nor a `forbid(` token, and
otherwise returns the text prefixed by a comment header.  `now` stands for
`new Date().toISOString()`; the class never assigns `this.agentId`, so the
template literal interpolates the string `undefined`. -/
def validateAndFormatPolicy (now generatedPolicy : String) : Except String String :=
  if !(strContains generatedPolicy "permit(") && !(strContains generatedPolicy "forbid(") then
    Except.error "Generated policy is not valid Cedar syntax"
  else
    Except.ok ("// Dynamically generated policy for MCP server access\n// Generated at: "
      ++ now ++ "\n// Agent: undefined\n\n" ++ generatedPolicy ++ "\n\n")

/-- `generatePolicyForAgent` of `dynamic-policy-mcp-server.js` (lines 22–55),
with the state passed explicitly and the LLM collaborator's returned policy
text (`llmResponse.policy`) supplied as the input `llmPolicy`.  The source
stores into both maps only after `validateAndFormatPolicy` has returned, so
a validation error leaves the state exactly as it was. -/
def generatePolicyForAgent (st : ServerState)
    (agentId task authentication : String) (roles : List String)
    (llmPolicy now : String) : Except String String × ServerState :=
  match validateAndFormatPolicy now llmPolicy with
  | Except.error e => (Except.error e, st)
  | Except.ok validatedPolicy =>
    (Except.ok validatedPolicy,
     { activePolicies := fun k => if k = agentId then some validatedPolicy else st.activePolicies k,
       agentContexts := fun k =>
         if k = agentId then some ⟨task, authentication, roles, now⟩ else st.agentContexts k })

/-- `evaluateAuthZ` of `dynamic-policy-mcp-server.js` (lines 668–694): look
the agent's policy up; `if (!policy) return false` covers both a missing
entry and an empty stored string; otherwise evaluate the policy text.  The
function is total: the no-policy case is an ordinary `false`, not an
exception. -/
def evaluateAuthZ (st : ServerState) (action principal resource agentId : String) : Bool :=
  match st.activePolicies agentId with
  | none => false
  | some policy =>
    if strIsEmpty policy then false
    else evaluatePolicyAgainstRequest policy action principal resource

/-! ## Spec-side definition and concrete documents used by the theorems -/

/-- The category-membership test §4.2 of the spec describes for
`CategoryMatch(category)`, stated from the spec's words for comparison with
`matchRule`: the principal equals the category exactly or is prefixed by the
category followed by the `-` separator. -/
def specCategoryMatch (category principal : String) : Bool :=
  principal == category || strStartsWith principal (category ++ "-")

/-- A document with a matching forbid rule followed by a matching permit
rule for the same request. -/
def forbidThenPermitDoc : String :=
  "forbid(\n    principal in MCP::Client::\"authenticated\",\n    action in MCP::Action::\"go\",\n);\npermit(\n    principal in MCP::Client::\"authenticated\",\n    action in MCP::Action::\"go\",\n);"

/-- A permit document whose action constraint is the bracketed set
`action in [MCP::Action::"A", MCP::Action::"B"]`. -/
def actionSetDoc : String :=
  "permit(\n    principal in MCP::Client::\"authenticated\",\n    action in [MCP::Action::\"A\", MCP::Action::\"B\"],\n    resource\n);"

/-- A permit document whose principal constraint is the exact match
`principal == MCP::Client::"bob"`. -/
def principalExactDoc : String :=
  "permit(\n    principal == MCP::Client::\"bob\",\n    action in MCP::Action::\"go\",\n    resource\n);"

/-- A document mixing a well-formed permit rule, garbage outside any
statement, a block that closes without any extracted constraint, a block
missing its closing token in the middle, a second well-formed rule, and a
block missing its closing token at the end. -/
def mixedDoc : String :=
  "hello world\npermit(\n    principal in MCP::Client::\"authenticated\",\n    action == MCP::Action::\"trade\",\n);\npermit(\n    resource\n);\nforbid(\n    principal in MCP::Client::\"unauthenticated\",\npermit(\n    action in MCP::Action::\"quote_tool\",\n);\nforbid(\n    action in MCP::Action::\"x\",\n"

/-- A store that already holds a policy for agent `bob` and nothing else. -/
def stOld : ServerState :=
  ⟨fun k => if k = "bob" then some "permit(old)" else none, fun _ => none⟩

/-! ## Theorems -/

/-- Claim C1 (code bug in `evaluateCedarPolicy`): on a document whose
matching forbid rule precedes a matching permit rule, the claim (and the
spec) demand `Deny`, and `evaluatePolicyAgainstRequest` indeed denies by
breaking at the forbid; but the rule loop of `evaluateCedarPolicy` has no
`break`, so the later permit overrides the forbid — despite the source's own
`Forbid takes precedence` comment — and the request is permitted. -/
theorem forbid_not_short_circuiting_in_stdio :
    evaluateCedarPolicy forbidThenPermitDoc "go" "test-client-authenticated" "r" = true ∧
    evaluatePolicyAgainstRequest forbidThenPermitDoc "go" "authenticated-x" "r" = false :=
  ⟨rfl, rfl⟩

/-- Claim C2 (code bug in `parsePolicyRules`): `parsePolicyRules` has no
branch for a bracketed `action in [...]` list, so the multi-action line is
silently dropped, the rule is stored with `action = null`, and the permit
matches the unlisted action `C` as well — the claim demands `Deny` there.
`parseCedarPolicy`/`evaluateCedarPolicy`, which do parse the bracket form,
behave as the claim states. -/
theorem action_set_ignored_by_parsePolicyRules :
    parsePolicyRules actionSetDoc = [⟨"permit", some "authenticated", none⟩] ∧
    evaluatePolicyAgainstRequest actionSetDoc "C" "authenticated-x" "r" = true ∧
    evaluateCedarPolicy actionSetDoc "A" "test-client-authenticated" "r" = true ∧
    evaluateCedarPolicy actionSetDoc "C" "test-client-authenticated" "r" = false :=
  ⟨rfl, rfl, rfl, rfl⟩

/-- Claim C4 (code bug in `parsePolicyRules`): `parsePolicyRules` has no
branch for `principal == MCP::Client::"..."`, so the exact-match line is
silently dropped and the rule is stored with an unconstrained principal —
exactly what the claim says must never happen — letting principal `alice`
through a rule written for `bob` alone.  `parseCedarPolicy` /
`evaluateCedarPolicy` extract and enforce the constraint as the claim
states. -/
theorem principal_exact_ignored_by_parsePolicyRules :
    parsePolicyRules principalExactDoc = [⟨"permit", none, some "go"⟩] ∧
    evaluatePolicyAgainstRequest principalExactDoc "go" "alice" "r" = true ∧
    evaluateCedarPolicy principalExactDoc "go" "alice" "r" = false ∧
    evaluateCedarPolicy principalExactDoc "go" "bob" "r" = true :=
  ⟨rfl, rfl, rfl, rfl⟩

/-- Claim C3, counterexample: the claim quantifies over every category
string, but `matchRule` hard-codes the two categories `authenticated` and
`unauthenticated`; for the category `admin` even the exactly-equal principal
`admin` — which the spec's membership rule accepts — fails to match. -/
theorem matchRule_category_counterexample :
    specCategoryMatch "admin" "admin" = true ∧
    matchRule ⟨"permit", some "admin", none⟩ "read_capabilities" "admin" "data/public" = false :=
  ⟨rfl, rfl⟩

/-- Claim C3, amended: in `matchRule`, a rule with principal category
constraint `C` matches a request exactly when `C` is one of the two built-in
categories `authenticated` / `unauthenticated` AND the request principal
satisfies the spec's membership rule (equality with `C`, or `C` followed by
the `-` separator); every other category matches no principal at all. -/
theorem matchRule_category_characterization (ty c action principal resource : String) :
    matchRule ⟨ty, some c, none⟩ action principal resource = true ↔
      ((c = "authenticated" ∨ c = "unauthenticated") ∧
        specCategoryMatch c principal = true) := by
  by_cases h1 : c = "authenticated"
  · subst h1
    simp [matchRule, specCategoryMatch, Bool.or_eq_true, Bool.and_eq_true, beq_iff_eq]
    tauto
  · by_cases h2 : c = "unauthenticated"
    · subst h2
      simp [matchRule, specCategoryMatch, Bool.or_eq_true, Bool.and_eq_true, beq_iff_eq]
      tauto
    · simp [matchRule, specCategoryMatch, Bool.or_eq_true, Bool.and_eq_true, beq_iff_eq, h1, h2]

/-- Claim C6, counterexample: in `evaluateCedarPolicy`, `principalMatches`
is initialized to `false` and is only ever set by a category or exact
constraint, so a rule with an unconstrained principal never matches: this
fully unconstrained permit rule — which per the claim passes both checks —
grants nothing. -/
theorem unconstrained_rule_never_matches_in_stdio :
    parseCedarPolicy "permit(\n);" = [⟨"permit", [], none, none, none, none⟩] ∧
    evaluateCedarPolicy "permit(\n);" "call_tool" "test-client-authenticated" "tools/a" = false :=
  ⟨rfl, rfl⟩

/-- Claim C6, amended: in `matchRule` the claim holds — an absent principal
constraint passes the principal check for every principal, an absent action
constraint passes the action check for every action, and a rule matches
exactly when both checks pass (conjunction decomposition).  In the rule loop
of `evaluateCedarPolicy`, however, only the action side of the claim holds:
a rule with no principal constraint at all never matches and leaves the
decision unchanged. -/
theorem matchRule_unconstrained_decomposition :
    (∀ ty action principal resource : String,
      matchRule ⟨ty, none, none⟩ action principal resource = true) ∧
    (∀ (ty action principal resource : String) (pOpt aOpt : Option String),
      matchRule ⟨ty, pOpt, aOpt⟩ action principal resource =
        (matchRule ⟨ty, pOpt, none⟩ action principal resource &&
         matchRule ⟨ty, none, aOpt⟩ action principal resource)) ∧
    (∀ (ty action principal decision : String) (aOpt : Option String)
        (acts : Option (List String)) (rest : List CedarRule),
      evalCedarRules (⟨ty, [], none, none, aOpt, acts⟩ :: rest) action principal decision =
        evalCedarRules rest action principal decision) := by
  refine ⟨fun ty a p r => rfl, ?_, fun ty a p d aOpt acts rest => rfl⟩
  intro ty a p r pOpt aOpt
  cases pOpt <;> cases aOpt <;> simp [matchRule]

/-- Claim C5: evaluation for an agent that was never registered returns the
decision Deny (`false`) — a normal return of the total function
`evaluateAuthZ`, not an exception. -/
theorem evaluateAuthZ_default_deny (st : ServerState)
    (action principal resource agentId : String)
    (h : st.activePolicies agentId = none) :
    evaluateAuthZ st action principal resource agentId = false := by
  unfold evaluateAuthZ
  rw [h]

/-- Witness for `evaluateAuthZ_default_deny` at the empty store. -/
theorem evaluateAuthZ_default_deny_witness :
    evaluateAuthZ ⟨fun _ => none, fun _ => none⟩
      "call_tool" "authenticated-x" "tools/a" "ghost-agent" = false :=
  evaluateAuthZ_default_deny ⟨fun _ => none, fun _ => none⟩
    "call_tool" "authenticated-x" "tools/a" "ghost-agent" rfl

/-- Helper for claim C9: the rule loop of `evaluatePolicyAgainstRequest`
gives the same answer for any two resource strings, because `matchRule`
never consults its resource argument. -/
theorem evalPolicyRules_resource_irrelevant (rules : List Rule)
    (action principal r1 r2 decision : String) :
    evalPolicyRules rules action principal r1 decision =
    evalPolicyRules rules action principal r2 decision := by
  induction rules generalizing decision with
  | nil => rfl
  | cons r rest ih =>
    simp only [evalPolicyRules]
    have hm : matchRule r action principal r1 = matchRule r action principal r2 := rfl
    rw [hm]
    split_ifs <;> first | rfl | exact ih _

/-- Claim C9: the decision is independent of the request's resource field —
for every policy text, action and principal, evaluating against any two
resource strings yields the same decision, in both evaluators. -/
theorem decision_resource_independent (policyText action principal r1 r2 : String) :
    evaluatePolicyAgainstRequest policyText action principal r1 =
      evaluatePolicyAgainstRequest policyText action principal r2 ∧
    evaluateCedarPolicy policyText action principal r1 =
      evaluateCedarPolicy policyText action principal r2 := by
  refine ⟨?_, rfl⟩
  unfold evaluatePolicyAgainstRequest
  rw [evalPolicyRules_resource_irrelevant (parsePolicyRules policyText)
    action principal r1 r2 "Deny"]

/-- Claim C7: registering a generated policy fails (the `InvalidPolicy`
throw of `validateAndFormatPolicy`) exactly when the supplied text contains
neither a `permit(` nor a `forbid(` token, and on that failure the store is
left exactly as it was: the prior record for the agent, if any, remains
active and unchanged. -/
theorem generatePolicy_invalid_iff_no_tokens (st : ServerState)
    (agentId task authentication : String) (roles : List String)
    (llmPolicy now : String) :
    ((∃ e, (generatePolicyForAgent st agentId task authentication roles llmPolicy now).1
        = Except.error e) ↔
      (strContains llmPolicy "permit(" = false ∧ strContains llmPolicy "forbid(" = false)) ∧
    (∀ e, (generatePolicyForAgent st agentId task authentication roles llmPolicy now).1
        = Except.error e →
      (generatePolicyForAgent st agentId task authentication roles llmPolicy now).2 = st) := by
  unfold generatePolicyForAgent validateAndFormatPolicy
  cases hb : (!(strContains llmPolicy "permit(") && !(strContains llmPolicy "forbid(")) with
  | true =>
    simp only [Bool.and_eq_true, Bool.not_eq_true'] at hb
    simp [hb]
  | false =>
    simp [hb]
    intro h1
    rw [h1] at hb
    simpa using hb

/-- Witness for `generatePolicy_invalid_iff_no_tokens`: prose with neither
token is rejected and the store keeps the prior record. -/
theorem generatePolicy_invalid_iff_no_tokens_witness :
    (generatePolicyForAgent stOld "agent-a" "trading" "mfa" ["trader"]
      "sorry, I cannot generate a policy" "2026-01-01").2 = stOld :=
  (generatePolicy_invalid_iff_no_tokens stOld "agent-a" "trading" "mfa" ["trader"]
      "sorry, I cannot generate a policy" "2026-01-01").2
    "Generated policy is not valid Cedar syntax" rfl

/-- Claim C8: parsing is total (`parsePolicyRules` is a total function into
rule lists).  An empty document yields the empty rule sequence; any line
outside an open statement whose trimmed form is not an opening token is
skipped with no effect; and in a document mixing garbage, a constraint-free
block, and two blocks missing their closing token, exactly the well-formed
rules are produced, in document order. -/
theorem parse_total_and_tolerant :
    parsePolicyRules "" = [] ∧
    (∀ (l : String) (rest : List String),
      strTrim l ≠ "permit(" → strTrim l ≠ "forbid(" →
      parsePolicyLines (l :: rest) none = parsePolicyLines rest none) ∧
    parsePolicyRules mixedDoc =
      [⟨"permit", some "authenticated", some "trade"⟩,
       ⟨"permit", none, some "quote_tool"⟩] := by
  refine ⟨rfl, ?_, rfl⟩
  intro l rest h1 h2
  simp only [parsePolicyLines]
  split_ifs <;> rfl

/-- Witness for `parse_total_and_tolerant`: a stray line outside any
statement is ignored. -/
theorem parse_total_and_tolerant_witness :
    parsePolicyLines ["; stray line ;"] none = parsePolicyLines [] none :=
  parse_total_and_tolerant.2.1 "; stray line ;" [] (by decide) (by decide)

/-- Claim C10: a successful `generatePolicyForAgent` call touches only the
written agent's entries: every other agent's stored policy text and context
are unchanged, and the written agent's record is replaced whole — its new
policy is exactly the returned validated text and its new context is built
from the call's arguments alone, independent of any prior record. -/
theorem generatePolicy_frame (st : ServerState)
    (agentId task authentication : String) (roles : List String)
    (llmPolicy now v k : String)
    (hok : (generatePolicyForAgent st agentId task authentication roles llmPolicy now).1
      = Except.ok v)
    (hk : k ≠ agentId) :
    ((generatePolicyForAgent st agentId task authentication roles llmPolicy now).2.activePolicies k
        = st.activePolicies k ∧
     (generatePolicyForAgent st agentId task authentication roles llmPolicy now).2.agentContexts k
        = st.agentContexts k) ∧
    ((generatePolicyForAgent st agentId task authentication roles llmPolicy now).2.activePolicies agentId
        = some v ∧
     (generatePolicyForAgent st agentId task authentication roles llmPolicy now).2.agentContexts agentId
        = some ⟨task, authentication, roles, now⟩) := by
  unfold generatePolicyForAgent at hok ⊢
  cases hv : validateAndFormatPolicy now llmPolicy with
  | error e =>
    rw [hv] at hok
    simp at hok
  | ok w =>
    rw [hv] at hok
    have hwv : w = v := by simpa using hok
    subst hwv
    simp [hk]

/-- Witness for `generatePolicy_frame`: a successful generation for agent
`agent-a` leaves agent `bob`'s prior record untouched and installs the
freshly validated policy and context for `agent-a`. -/
theorem generatePolicy_frame_witness :
    ((generatePolicyForAgent stOld "agent-a" "trading" "mfa" ["trader"]
        "permit(\n);" "2026-01-01").2.activePolicies "bob"
      = stOld.activePolicies "bob" ∧
     (generatePolicyForAgent stOld "agent-a" "trading" "mfa" ["trader"]
        "permit(\n);" "2026-01-01").2.agentContexts "bob"
      = stOld.agentContexts "bob") ∧
    ((generatePolicyForAgent stOld "agent-a" "trading" "mfa" ["trader"]
        "permit(\n);" "2026-01-01").2.activePolicies "agent-a"
      = some "// Dynamically generated policy for MCP server access\n// Generated at: 2026-01-01\n// Agent: undefined\n\npermit(\n);\n\n" ∧
     (generatePolicyForAgent stOld "agent-a" "trading" "mfa" ["trader"]
        "permit(\n);" "2026-01-01").2.agentContexts "agent-a"
      = some ⟨"trading", "mfa", ["trader"], "2026-01-01"⟩) :=
  generatePolicy_frame stOld "agent-a" "trading" "mfa" ["trader"] "permit(\n);" "2026-01-01"
    "// Dynamically generated policy for MCP server access\n// Generated at: 2026-01-01\n// Agent: undefined\n\npermit(\n);\n\n"
    "bob" rfl (by decide)
